import Mathlib

set_option autoImplicit false

namespace Conduit

/-! Shallow embedding of the API test-automation harness: the fluent request
builder (`RequestHandler`), the append-only `APILogger`, the schema validator
and the custom assertion wrappers, translated from the TypeScript sources
`utils/request-handler.ts`, `utils/logger.ts`, `utils/schema-validator.ts`,
`utils/custom-expect.ts` and `utils/fixtures.ts`. -/

/-- Structured JSON values as they exist in the JavaScript runtime: request
bodies, parsed response payloads and logged data are values of this shape.
Numbers are modelled as integers (no claim depends on fractional values). -/
inductive Json where
  | null
  | bool (b : Bool)
  | num (n : Int)
  | str (s : String)
  | arr (elems : List Json)
  | obj (fields : List (String × Json))

/-- The empty JSON object, the literal written as two braces in TypeScript:
the initial and reset value of the builder field `apiBody`, and the value
substituted for unparseable POST/PUT response bodies. -/
def Json.emptyObj : Json := Json.obj []

/-- Escape of one character inside a JSON string literal, as produced by the
runtime serializer for the characters that occur in this development. -/
def escapeChar (c : Char) : String :=
  if c = '"' then "\\\"" else if c = '\\' then "\\\\" else String.singleton c

/-- Escape of a whole string for inclusion in serializer output. -/
def escapeString (s : String) : String :=
  String.join (s.toList.map escapeChar)

/-- Indentation padding of a given width, as produced by the runtime
serializer when called with an indent of 4. -/
def pad (n : Nat) : String :=
  String.mk (List.replicate n ' ')

mutual

/-- Embedding of the runtime JSON serializer with an indent of 4
(`JSON.stringify(value, null, 4)`) at a given current indentation depth.
Used by the logger dump and by the schema-mismatch error message. -/
def stringify (j : Json) (indent : Nat) : String :=
  match j with
  | .null => "null"
  | .bool true => "true"
  | .bool false => "false"
  | .num n => toString n
  | .str s => "\"" ++ escapeString s ++ "\""
  | .arr [] => "[]"
  | .arr es => "[\n" ++ stringifyElems es (indent + 4) ++ "\n" ++ pad indent ++ "]"
  | .obj [] => "\x7b\x7d"
  | .obj fs => "\x7b\n" ++ stringifyProps fs (indent + 4) ++ "\n" ++ pad indent ++ "\x7d"
termination_by sizeOf j

/-- Serialization of the elements of a JSON array, one per line. -/
def stringifyElems (es : List Json) (indent : Nat) : String :=
  match es with
  | [] => ""
  | [e] => pad indent ++ stringify e indent
  | e :: tl => pad indent ++ stringify e indent ++ ",\n" ++ stringifyElems tl indent
termination_by sizeOf es

/-- Serialization of the fields of a JSON object, one per line. -/
def stringifyProps (fs : List (String × Json)) (indent : Nat) : String :=
  match fs with
  | [] => ""
  | [(k, v)] => pad indent ++ "\"" ++ escapeString k ++ "\": " ++ stringify v indent
  | (k, v) :: tl =>
      pad indent ++ "\"" ++ escapeString k ++ "\": " ++ stringify v indent ++ ",\n" ++
        stringifyProps tl indent
termination_by sizeOf fs
end

/-! The APILogger of `utils/logger.ts`: an append-only in-memory list of
tagged request/response entries, read back as a formatted dump. The mutable
`recentLogs` array of the class is modelled as an explicit `List LogEntry`
threaded through the operations. -/

/-- One entry of the logger. `logRequest` pushes a `Request Details` entry
holding method, url, headers and (optionally, for POST/PUT) the body;
`logResponse` pushes a `Response Details` entry holding the status code and
(optionally) the body. An omitted optional argument is `none`. -/
inductive LogEntry where
  | request (method url : String) (headers : List (String × String)) (body : Option Json)
  | response (statusCode : Nat) (body : Option Json)

/-- Embedding of `APILogger.logRequest`: pushes a Request entry at the end of
the log list. -/
def logRequest (logs : List LogEntry) (method url : String)
    (headers : List (String × String)) (body : Option Json) : List LogEntry :=
  logs ++ [LogEntry.request method url headers body]

/-- Embedding of `APILogger.logResponse`: pushes a Response entry at the end
of the log list. -/
def logResponse (logs : List LogEntry) (statusCode : Nat) (body : Option Json) :
    List LogEntry :=
  logs ++ [LogEntry.response statusCode body]

/-- Conversion of a header map to the JSON object the logger serializes. -/
def headersToJson (hs : List (String × String)) : Json :=
  Json.obj (hs.map (fun kv => (kv.1, Json.str kv.2)))

/-- The data object serialized for a Request entry: the object literal
`(method, url, headers, body)` of `logRequest`, where an `undefined` body is
omitted from the serializer output. -/
def requestData (method url : String) (headers : List (String × String))
    (body : Option Json) : Json :=
  match body with
  | some b =>
      Json.obj [("method", Json.str method), ("url", Json.str url),
        ("headers", headersToJson headers), ("body", b)]
  | none =>
      Json.obj [("method", Json.str method), ("url", Json.str url),
        ("headers", headersToJson headers)]

/-- The data object serialized for a Response entry, an `undefined` body
again being omitted. -/
def responseData (statusCode : Nat) (body : Option Json) : Json :=
  match body with
  | some b => Json.obj [("statusCode", Json.num statusCode), ("body", b)]
  | none => Json.obj [("statusCode", Json.num statusCode)]

/-- Rendering of one log entry in the dump: a type banner followed by the
pretty-printed entry data, as in `getRecentLogs`. -/
def renderEntry : LogEntry → String
  | .request m u hs b => "===Request Details===\n" ++ stringify (requestData m u hs b) 0
  | .response s b => "===Response Details===\n" ++ stringify (responseData s b) 0

/-- Embedding of `APILogger.getRecentLogs`: every entry rendered in append
order, joined by blank lines. -/
def getRecentLogs (logs : List LogEntry) : String :=
  String.intercalate "\n\n" (logs.map renderEntry)

/-! The RequestHandler of `utils/request-handler.ts`. The class instance
fields form the mutable request descriptor; the embedding passes the record
explicitly and every method returns the updated record. -/

/-- The instance fields of the `RequestHandler` class. `defaultBaseUrl` and
`defaultAuthToken` are fixed by the constructor; the six remaining fields are
the mutable per-call descriptor. The uninitialized `clearAuthFlag` of the
source is `undefined`, which behaves as `false`; it is modelled as `Bool`. -/
structure RequestHandler where
  defaultBaseUrl : String
  defaultAuthToken : String
  baseUrl : Option String
  apiPath : String
  queryParams : List (String × String)
  apiHeaders : List (String × String)
  apiBody : Json
  clearAuthFlag : Bool

/-- Embedding of the `RequestHandler` constructor: descriptor fields start at
their declared defaults. -/
def RequestHandler.make (apiBaseUrl authToken : String) : RequestHandler :=
  { defaultBaseUrl := apiBaseUrl, defaultAuthToken := authToken,
    baseUrl := none, apiPath := "", queryParams := [], apiHeaders := [],
    apiBody := Json.emptyObj, clearAuthFlag := false }

/-- Setter `url`: overrides the base URL for the pending call. -/
def RequestHandler.url (h : RequestHandler) (u : String) : RequestHandler :=
  { h with baseUrl := some u }

/-- Setter `path`: sets the endpoint path for the pending call. -/
def RequestHandler.path (h : RequestHandler) (p : String) : RequestHandler :=
  { h with apiPath := p }

/-- Setter `params`: sets the query parameters for the pending call. Scalar
values are modelled as their string form. -/
def RequestHandler.params (h : RequestHandler) (ps : List (String × String)) :
    RequestHandler :=
  { h with queryParams := ps }

/-- Setter `headers`: sets the custom header map for the pending call. -/
def RequestHandler.headers (h : RequestHandler) (hs : List (String × String)) :
    RequestHandler :=
  { h with apiHeaders := hs }

/-- Setter `body`: sets the request body for the pending call. -/
def RequestHandler.body (h : RequestHandler) (b : Json) : RequestHandler :=
  { h with apiBody := b }

/-- Setter `clearAuth`: raises the suppress-authentication flag for the
pending call. -/
def RequestHandler.clearAuth (h : RequestHandler) : RequestHandler :=
  { h with clearAuthFlag := true }

/-- Lookup in a JavaScript string-keyed object (`obj[key]`): the value at the
first matching key, or `none` for an absent property. -/
def getKey : List (String × String) → String → Option String
  | [], _ => none
  | (k, v) :: rest, key => if k = key then some v else getKey rest key

/-- Assignment in a JavaScript string-keyed object (`obj[key] = value`): an
existing property is overwritten in place, a new one is appended last. -/
def setKey : List (String × String) → String → String → List (String × String)
  | [], key, value => [(key, value)]
  | (k, v) :: rest, key, value =>
      if k = key then (key, value) :: rest else (k, v) :: setKey rest key value

/-- Embedding of the private `getHeaders`. When `clearAuthFlag` is not set it
executes the assignment with the short-circuit `or` of the source, in which
both an absent `Authorization` property and an empty-string one are falsy and
fall back to `defaultAuthToken`; it then returns the (mutated) header map.
When the flag is set, the header map is returned untouched. The updated
handler is returned alongside because the assignment mutates the instance. -/
def getHeaders (h : RequestHandler) : RequestHandler × List (String × String) :=
  if !h.clearAuthFlag then
    let current := (getKey h.apiHeaders "Authorization").getD ""
    let value := if current = "" then h.defaultAuthToken else current
    let updated := setKey h.apiHeaders "Authorization" value
    ({ h with apiHeaders := updated }, updated)
  else
    (h, h.apiHeaders)

/-- Embedding of the private `cleanupFields`: resets the six mutable
descriptor fields to their declared defaults, leaving the two constructor
defaults untouched. -/
def cleanupFields (h : RequestHandler) : RequestHandler :=
  { h with
    apiBody := Json.emptyObj
    apiHeaders := []
    baseUrl := none
    apiPath := ""
    queryParams := []
    clearAuthFlag := false }

/-- Embedding of the private `getUrl`: the override base URL (falling back to
the default one) concatenated with the path, followed by the query parameters
in insertion order. Percent-encoding and URL normalization performed by the
runtime URL class are not modelled; no claim depends on them. -/
def getUrl (h : RequestHandler) : String :=
  let base := (h.baseUrl.getD h.defaultBaseUrl) ++ h.apiPath
  match h.queryParams with
  | [] => base
  | ps => base ++ "?" ++ String.intercalate "&" (ps.map (fun kv => kv.1 ++ "=" ++ kv.2))

/-! The four dispatch methods. The external HTTP client is an ambient
collaborator: each dispatch takes the response the client would deliver as an
explicit argument. The response carries the numeric status code and the
outcome of `response.json()`, which either yields a parsed payload or fails
(empty or non-JSON body). Thrown JavaScript errors become `Except.error`. -/

/-- The observable behaviour of the external HTTP client for one call: the
numeric status code and the result of parsing the body as JSON. -/
structure HttpResponse where
  status : Nat
  jsonBody : Except Unit Json

/-- The errors a dispatch can raise: the status-mismatch error built by
`statusCodeValidator` (carrying its message), or a propagated payload-parse
failure from `response.json()`. -/
inductive DispatchError where
  | statusMismatch (message : String)
  | parseFailure

/-- The message of the status-mismatch error, exactly as interpolated in
`statusCodeValidator`. -/
def statusErrorMessage (expectStatus actualStatus : Nat) (logs : String) : String :=
  "Expected status " ++ toString expectStatus ++ " but got " ++ toString actualStatus ++
    "\n\nRecent API Activity: \n" ++ logs

/-- Embedding of the private `statusCodeValidator`: on mismatch it throws the
error whose message holds both status codes and the formatted dump of the
logger; on a match it returns normally. The `callingMethod` argument of the
source only adjusts the JavaScript stack trace and is not modelled. -/
def statusCodeValidator (logs : List LogEntry) (actualStatus expectStatus : Nat) :
    Except DispatchError Unit :=
  if actualStatus ≠ expectStatus then
    Except.error (DispatchError.statusMismatch
      (statusErrorMessage expectStatus actualStatus (getRecentLogs logs)))
  else
    Except.ok ()

/-- Markers for the side-effecting steps of a dispatch, recorded in the order
the dispatch performs them so that intra-dispatch ordering is observable. -/
inductive Event where
  | logRequestEv
  | sendRequestEv
  | cleanupEv
  | logResponseEv
  | validateEv
deriving DecidableEq

/-- The state a dispatch acts on: the handler instance, the shared logger
list, and the trace of step events recorded so far. -/
structure Ctx where
  handler : RequestHandler
  logs : List LogEntry
  events : List Event

/-- Embedding of `getRequest`. In source order: compute the url; log the
request (the first `getHeaders()` call mutates the header map); execute the
GET with a second `getHeaders()` call; `cleanupFields`; read the status;
parse the body with `response.json()`, whose failure propagates (GET has no
recovery); log the response; validate the status code; return the payload. -/
def getRequest (c : Ctx) (statusCode : Nat) (response : HttpResponse) :
    Ctx × Except DispatchError Json :=
  let url := getUrl c.handler
  let step1 := getHeaders c.handler
  let logs1 := logRequest c.logs "GET" url step1.2 none
  let ev1 := c.events ++ [Event.logRequestEv]
  let step2 := getHeaders step1.1
  let ev2 := ev1 ++ [Event.sendRequestEv]
  let h3 := cleanupFields step2.1
  let ev3 := ev2 ++ [Event.cleanupEv]
  let actualStatus := response.status
  match response.jsonBody with
  | Except.error _ => (⟨h3, logs1, ev3⟩, Except.error DispatchError.parseFailure)
  | Except.ok responseJSON =>
      let logs2 := logResponse logs1 actualStatus (some responseJSON)
      let ev4 := ev3 ++ [Event.logResponseEv]
      match statusCodeValidator logs2 actualStatus statusCode with
      | Except.error e => (⟨h3, logs2, ev4 ++ [Event.validateEv]⟩, Except.error e)
      | Except.ok _ => (⟨h3, logs2, ev4 ++ [Event.validateEv]⟩, Except.ok responseJSON)

/-- Embedding of `postRequest`. In source order: compute the url; log the
request together with the body; execute the POST (second `getHeaders()`
call); `cleanupFields`; read the status; parse the body, substituting the
empty object when parsing fails; log the response; validate the status code;
return the payload. -/
def postRequest (c : Ctx) (statusCode : Nat) (response : HttpResponse) :
    Ctx × Except DispatchError Json :=
  let url := getUrl c.handler
  let step1 := getHeaders c.handler
  let logs1 := logRequest c.logs "POST" url step1.2 (some c.handler.apiBody)
  let ev1 := c.events ++ [Event.logRequestEv]
  let step2 := getHeaders step1.1
  let ev2 := ev1 ++ [Event.sendRequestEv]
  let h3 := cleanupFields step2.1
  let ev3 := ev2 ++ [Event.cleanupEv]
  let actualStatus := response.status
  let responseJSON :=
    match response.jsonBody with
    | Except.ok r => r
    | Except.error _ => Json.emptyObj
  let logs2 := logResponse logs1 actualStatus (some responseJSON)
  let ev4 := ev3 ++ [Event.logResponseEv]
  match statusCodeValidator logs2 actualStatus statusCode with
  | Except.error e => (⟨h3, logs2, ev4 ++ [Event.validateEv]⟩, Except.error e)
  | Except.ok _ => (⟨h3, logs2, ev4 ++ [Event.validateEv]⟩, Except.ok responseJSON)

/-- Embedding of `putRequest`, structured exactly like `postRequest`. -/
def putRequest (c : Ctx) (statusCode : Nat) (response : HttpResponse) :
    Ctx × Except DispatchError Json :=
  let url := getUrl c.handler
  let step1 := getHeaders c.handler
  let logs1 := logRequest c.logs "PUT" url step1.2 (some c.handler.apiBody)
  let ev1 := c.events ++ [Event.logRequestEv]
  let step2 := getHeaders step1.1
  let ev2 := ev1 ++ [Event.sendRequestEv]
  let h3 := cleanupFields step2.1
  let ev3 := ev2 ++ [Event.cleanupEv]
  let actualStatus := response.status
  let responseJSON :=
    match response.jsonBody with
    | Except.ok r => r
    | Except.error _ => Json.emptyObj
  let logs2 := logResponse logs1 actualStatus (some responseJSON)
  let ev4 := ev3 ++ [Event.logResponseEv]
  match statusCodeValidator logs2 actualStatus statusCode with
  | Except.error e => (⟨h3, logs2, ev4 ++ [Event.validateEv]⟩, Except.error e)
  | Except.ok _ => (⟨h3, logs2, ev4 ++ [Event.validateEv]⟩, Except.ok responseJSON)

/-- Embedding of `deleteRequest`: logs the request without a body, executes
the DELETE, cleans up, logs only the status code (no body and no parse), and
validates the status code; it returns nothing. -/
def deleteRequest (c : Ctx) (statusCode : Nat) (response : HttpResponse) :
    Ctx × Except DispatchError Unit :=
  let url := getUrl c.handler
  let step1 := getHeaders c.handler
  let logs1 := logRequest c.logs "DELETE" url step1.2 none
  let ev1 := c.events ++ [Event.logRequestEv]
  let step2 := getHeaders step1.1
  let ev2 := ev1 ++ [Event.sendRequestEv]
  let h3 := cleanupFields step2.1
  let ev3 := ev2 ++ [Event.cleanupEv]
  let actualStatus := response.status
  let logs2 := logResponse logs1 actualStatus none
  let ev4 := ev3 ++ [Event.logResponseEv]
  match statusCodeValidator logs2 actualStatus statusCode with
  | Except.error e => (⟨h3, logs2, ev4 ++ [Event.validateEv]⟩, Except.error e)
  | Except.ok _ => (⟨h3, logs2, ev4 ++ [Event.validateEv]⟩, Except.ok ())

/-- The four HTTP methods a dispatch can use. -/
inductive Method where
  | GET
  | POST
  | PUT
  | DELETE
deriving DecidableEq

/-- Uniform view of the four dispatch methods, wrapping their payloads into a
common result type: GET/POST/PUT yield their payload, DELETE yields none. -/
def dispatch (m : Method) (c : Ctx) (statusCode : Nat) (response : HttpResponse) :
    Ctx × Except DispatchError (Option Json) :=
  match m with
  | .GET => let r := getRequest c statusCode response; (r.1, r.2.map some)
  | .POST => let r := postRequest c statusCode response; (r.1, r.2.map some)
  | .PUT => let r := putRequest c statusCode response; (r.1, r.2.map some)
  | .DELETE => let r := deleteRequest c statusCode response; (r.1, r.2.map (fun _ => none))

/-- One chainable setter call on the builder. -/
inductive SetterOp where
  | url (u : String)
  | path (p : String)
  | params (ps : List (String × String))
  | headers (hs : List (String × String))
  | body (b : Json)
  | clearAuth

/-- Application of one setter call to the handler instance. -/
def applySetter (h : RequestHandler) : SetterOp → RequestHandler
  | .url u => h.url u
  | .path p => h.path p
  | .params ps => h.params ps
  | .headers hs => h.headers hs
  | .body b => h.body b
  | .clearAuth => h.clearAuth

/-- Application of a chain of setter calls, left to right. -/
def applySetters (h : RequestHandler) (ops : List SetterOp) : RequestHandler :=
  ops.foldl applySetter h

/-- One call a test makes on the builder: a setter or a dispatch (the latter
carrying the expected status passed by the test and the response the external
HTTP client delivers). -/
inductive Op where
  | setter (s : SetterOp)
  | dispatchOp (m : Method) (statusCode : Nat) (response : HttpResponse)

/-- Effect of one builder call on the shared state. A dispatch may throw, but
the instance state and the logger survive the throw, so only the resulting
state matters here. -/
def runOp (c : Ctx) : Op → Ctx
  | .setter s => { c with handler := applySetter c.handler s }
  | .dispatchOp m statusCode response => (dispatch m c statusCode response).1

/-- Effect of a sequence of builder calls, left to right. -/
def runOps (c : Ctx) (ops : List Op) : Ctx :=
  ops.foldl runOp c

/-! The schema validator of `utils/schema-validator.ts`. The inference engine
(genson-js `createSchema`) and the structural checker (AJV) are third-party
libraries whose code is not part of this repository; they are modelled from
the words of the spec: inference captures types, required keys and nesting,
and validation is type-checking plus required-field-checking. The filesystem
is modelled as an explicit path-to-document store. -/

/-- Primitive JSON Schema type names. -/
inductive SchemaTy where
  | nullT
  | booleanT
  | integerT
  | numberT
  | stringT
deriving DecidableEq

/-- Modelled from the spec: a JSON Schema document as the validator uses it —
a primitive type, an array schema with an optional item schema, an object
schema with property schemas and required keys, or a choice of schemas. -/
inductive Schema where
  | prim (t : SchemaTy)
  | array (items : Option Schema)
  | object (properties : List (String × Schema)) (required : List String)
  | anyOf (schemas : List Schema)

mutual

/-- Modelled from the spec: schema inference from a sample payload (genson-js
`createSchema`) — each value is described by its type, an object lists a
schema for every property and requires all keys present in the sample, and a
nonempty array describes its items by the choice of its element schemas (the
empty array leaves items unconstrained). -/
def createSchema : Json → Schema
  | .null => .prim .nullT
  | .bool _ => .prim .booleanT
  | .num _ => .prim .integerT
  | .str _ => .prim .stringT
  | .arr [] => .array none
  | .arr es => .array (some (.anyOf (createSchemaList es)))
  | .obj fs => .object (createSchemaProps fs) (fs.map Prod.fst)
termination_by j => sizeOf j

/-- Inferred schemas of the elements of an array sample. -/
def createSchemaList : List Json → List Schema
  | [] => []
  | e :: tl => createSchema e :: createSchemaList tl
termination_by es => sizeOf es

/-- Inferred property schemas of an object sample. -/
def createSchemaProps : List (String × Json) → List (String × Schema)
  | [] => []
  | (k, v) :: tl => (k, createSchema v) :: createSchemaProps tl
termination_by fs => sizeOf fs

end

/-- Lookup of the first entry stored under a key in a path- or name-keyed
association list of schema documents. -/
def findProp : List (String × Schema) → String → Option Schema
  | [], _ => none
  | (k, s) :: rest, key => if k = key then some s else findProp rest key

/-- Presence of a property name among the fields of a JSON object. -/
def hasField (fs : List (String × Json)) (key : String) : Bool :=
  fs.any (fun kv => kv.1 == key)

/-- Required-key check of the structural validator: every required name must
be present in the instance object. -/
def requiredOk (req : List String) (fs : List (String × Json)) : Bool :=
  req.all (fun k => hasField fs k)

mutual

/-- Modelled from the spec: structural validation of an instance against a
schema (AJV) — type-checking and required-field-checking. Properties not
described by the schema are unconstrained, as AJV leaves additional
properties open by default. -/
def validateJson (s : Schema) (j : Json) : Bool :=
  match s, j with
  | .anyOf ss, v => validateAnyOf ss v
  | .prim .nullT, .null => true
  | .prim .booleanT, .bool _ => true
  | .prim .integerT, .num _ => true
  | .prim .numberT, .num _ => true
  | .prim .stringT, .str _ => true
  | .array none, .arr _ => true
  | .array (some s0), .arr es => validateElems s0 es
  | .object props req, .obj fs => requiredOk req fs && validateFields props fs
  | _, _ => false
termination_by (sizeOf j, sizeOf s)

/-- Validation of an instance against a choice of schemas: some alternative
must accept it. -/
def validateAnyOf (ss : List Schema) (j : Json) : Bool :=
  match ss with
  | [] => false
  | s :: tl => validateJson s j || validateAnyOf tl j
termination_by (sizeOf j, sizeOf ss)

/-- Validation of every array element against the item schema. -/
def validateElems (s : Schema) (es : List Json) : Bool :=
  match es with
  | [] => true
  | e :: tl => validateJson s e && validateElems s tl
termination_by (sizeOf es, sizeOf s)

/-- Validation of every instance field that the schema describes. -/
def validateFields (props : List (String × Schema)) (fs : List (String × Json)) : Bool :=
  match fs with
  | [] => true
  | (k, v) :: tl =>
      (match findProp props k with
       | some s => validateJson s v
       | none => true) && validateFields props tl
termination_by (sizeOf fs, sizeOf props)

end

mutual

/-- Well-formedness of a payload as a JavaScript runtime value: object keys
are distinct at every nesting level, because a JavaScript object cannot hold
two properties of the same name. -/
def noDupKeys : Json → Bool
  | .null => true
  | .bool _ => true
  | .num _ => true
  | .str _ => true
  | .arr es => noDupKeysList es
  | .obj fs => decide ((fs.map Prod.fst).Nodup) && noDupKeysProps fs
termination_by j => sizeOf j

/-- Key-distinctness of every element of an array. -/
def noDupKeysList : List Json → Bool
  | [] => true
  | e :: tl => noDupKeys e && noDupKeysList tl
termination_by es => sizeOf es

/-- Key-distinctness of every field value of an object. -/
def noDupKeysProps : List (String × Json) → Bool
  | [] => true
  | (_, v) :: tl => noDupKeys v && noDupKeysProps tl
termination_by fs => sizeOf fs

end

/-- Storage of a schema document under a path: an existing file is
overwritten, a new one is created. -/
def setSchema : List (String × Schema) → String → Schema → List (String × Schema)
  | [], key, value => [(key, value)]
  | (k, v) :: rest, key, value =>
      if k = key then (key, value) :: rest else (k, v) :: setSchema rest key value

/-- The conventional schema file location: the join of the base directory
`./response-schemas`, the resource directory, and the file name with the
`_schema.json` suffix (the runtime path join drops the leading dot
segment). -/
def schemaPathOf (dirName fileName : String) : String :=
  "response-schemas/" ++ dirName ++ "/" ++ fileName ++ "_schema.json"

/-- Modelled from the spec: the message of the error the runtime filesystem
API raises for a missing file, which names the path it could not open. -/
def enoentMessage (p : String) : String :=
  "ENOENT: no such file or directory, open " ++ p

/-- Embedding of `loadSchema`: reading and parsing the stored document, or
wrapping the read failure in the Failed-to-read message of the source. -/
def loadSchema (store : List (String × Schema)) (schemaPath : String) :
    Except String Schema :=
  match findProp store schemaPath with
  | some s => Except.ok s
  | none =>
      Except.error ("Failed to read the schema file: " ++ enoentMessage schemaPath)

/-- Embedding of `generateNewSchema`: infers a schema from the response body
and persists it at the given path, overwriting any existing file. -/
def generateNewSchema (store : List (String × Schema)) (responseBody : Json)
    (schemaPath : String) : List (String × Schema) :=
  setSchema store schemaPath (createSchema responseBody)

/-- Embedding of `validateSchema`: optionally generates the schema first,
loads it from the conventional location, and validates the response body
against it, raising a detailed error on mismatch. The AJV violation list of
the source message is not modelled; the message keeps the failing file name
and the pretty-printed actual payload. -/
def validateSchema (store : List (String × Schema)) (dirName fileName : String)
    (responseBody : Json) (createSchemaFlag : Bool) :
    List (String × Schema) × Except String Unit :=
  let path := schemaPathOf dirName fileName
  let store1 := if createSchemaFlag then generateNewSchema store responseBody path else store
  match loadSchema store1 path with
  | Except.error m => (store1, Except.error m)
  | Except.ok schema =>
      if validateJson schema responseBody then
        (store1, Except.ok ())
      else
        (store1, Except.error ("Schema validation " ++ fileName ++ "_schema.json failed:\n" ++
          "Actual response body: \n" ++ stringify responseBody 0))

/-! The custom assertion wrappers of `utils/custom-expect.ts`. The baseline
assertions `toEqual` and `toBeLessThanOrEqual` belong to the external test
framework; each wrapper receives the baseline as an oracle that either
returns normally (`true`) or throws (`false`), mirroring the try/catch of the
source. -/

/-- The value a custom matcher hands back to the test framework: the
pass/fail verdict and the diagnostic message. -/
structure MatcherResult where
  pass : Bool
  message : String

/-- Modelled from the spec: the hint line the framework matcher utilities
produce for a possibly negated matcher name. -/
def matcherHint (name : String) (isNot : Bool) : String :=
  "expect(received)." ++ (if isNot then "not." else "") ++ name ++ "(expected)"

/-- Embedding of `shouldEqual`: the verdict is the baseline outcome of the
try/catch; the logger dump is fetched on failure, and also on success when
the matcher is negated; the message carries the hint, both printed values and
the fetched dump. -/
def shouldEqual (toEqualBase : Json → Json → Bool) (logs : List LogEntry)
    (isNot : Bool) (received expected : Json) : MatcherResult :=
  let pass := toEqualBase received expected
  let logsStr :=
    if pass then (if isNot then getRecentLogs logs else "") else getRecentLogs logs
  let hint := if isNot then "not" else ""
  { pass := pass
    message := matcherHint "shouldEqual" isNot ++ "\n\n" ++
      "Expected: " ++ hint ++ " " ++ stringify expected 0 ++ "\n" ++
      "Received: " ++ stringify received 0 ++ "\n\n" ++
      "Recent API Activity: \n" ++ logsStr }

/-- Embedding of `shouldBeLessThanOrEqual`, structured exactly like
`shouldEqual` around the baseline comparison assertion. -/
def shouldBeLessThanOrEqual (toBeLessThanOrEqualBase : Json → Json → Bool)
    (logs : List LogEntry) (isNot : Bool) (received expected : Json) : MatcherResult :=
  let pass := toBeLessThanOrEqualBase received expected
  let logsStr :=
    if pass then (if isNot then getRecentLogs logs else "") else getRecentLogs logs
  let hint := if isNot then "not" else ""
  { pass := pass
    message := matcherHint "shouldBeLessThanOrEqual" isNot ++ "\n\n" ++
      "Expected: " ++ hint ++ " " ++ stringify expected 0 ++ "\n" ++
      "Received: " ++ stringify received 0 ++ "\n\n" ++
      "Recent API Activity: \n" ++ logsStr }

/-! Helper notions used by the claim statements. -/

/-- Substring containment, witnessed by an explicit decomposition. -/
def containsSub (s sub : String) : Prop :=
  ∃ pre post, s = pre ++ sub ++ post

/-- Whether a dispatch result is a thrown status-mismatch error. -/
def isStatusMismatch {α : Type} : Except DispatchError α → Bool
  | Except.error (DispatchError.statusMismatch _) => true
  | _ => false

/-- The message of a thrown status-mismatch error (empty otherwise). -/
def mismatchMessage {α : Type} : Except DispatchError α → String
  | Except.error (DispatchError.statusMismatch m) => m
  | _ => ""

/-- Whether a dispatch returned normally. -/
def isOkResult {α : Type} : Except DispatchError α → Bool
  | Except.ok _ => true
  | _ => false

/-- Whether the payload parse step of a dispatch leaves it running: always,
except for a GET whose body fails to parse (GET has no recovery). -/
def parseRecovered (m : Method) (r : HttpResponse) : Bool :=
  match m, r.jsonBody with
  | .GET, .error _ => false
  | _, _ => true

/-! Helper lemmas. -/

/-- The handler state every dispatch leaves behind is the cleaned-up state,
whatever the response and the expected status were. -/
theorem dispatch_handler (m : Method) (c : Ctx) (sc : Nat) (r : HttpResponse) :
    (dispatch m c sc r).1.handler = cleanupFields (getHeaders (getHeaders c.handler).1).1 := by
  cases m <;>
    rcases r with ⟨st, _ | j⟩ <;>
    simp only [dispatch, getRequest, postRequest, putRequest, deleteRequest] <;>
    (try split) <;> rfl

/-- The reset state has all six descriptor fields at their defaults. -/
theorem cleanupFields_resets (h : RequestHandler) :
    (cleanupFields h).apiPath = "" ∧ (cleanupFields h).queryParams = [] ∧
      (cleanupFields h).apiHeaders = [] ∧ (cleanupFields h).apiBody = Json.emptyObj ∧
      (cleanupFields h).baseUrl = none ∧ (cleanupFields h).clearAuthFlag = false := by
  simp [cleanupFields]

/-- C1: for every sequence of setter calls followed by one dispatch (any
method, any expected status, any response, hence regardless of whether status
validation passed or threw), the mutable descriptor of the builder is back at
its empty defaults immediately afterwards: empty path, params, headers and
body, no base-url override, and a lowered clear-auth flag — so nothing
carries over into the next dispatch on the same instance. -/
theorem reset_invariant_after_dispatch (h0 : RequestHandler) (ops : List SetterOp)
    (logs : List LogEntry) (m : Method) (sc : Nat) (r : HttpResponse) :
    ((dispatch m ⟨applySetters h0 ops, logs, []⟩ sc r).1.handler.apiPath = "" ∧
      (dispatch m ⟨applySetters h0 ops, logs, []⟩ sc r).1.handler.queryParams = []) ∧
    ((dispatch m ⟨applySetters h0 ops, logs, []⟩ sc r).1.handler.apiHeaders = [] ∧
      (dispatch m ⟨applySetters h0 ops, logs, []⟩ sc r).1.handler.apiBody = Json.emptyObj) ∧
    ((dispatch m ⟨applySetters h0 ops, logs, []⟩ sc r).1.handler.baseUrl = none ∧
      (dispatch m ⟨applySetters h0 ops, logs, []⟩ sc r).1.handler.clearAuthFlag = false) := by
  rw [dispatch_handler m ⟨applySetters h0 ops, logs, []⟩ sc r]
  have h := cleanupFields_resets (getHeaders (getHeaders (applySetters h0 ops)).1).1
  exact ⟨⟨h.1, h.2.1⟩, ⟨h.2.2.1, h.2.2.2.1⟩, ⟨h.2.2.2.2.1, h.2.2.2.2.2⟩⟩

/-- The header map actually sent with a dispatch: the result of the second
`getHeaders()` call, made when the HTTP client is invoked (the first call,
made while logging the request, has already mutated the instance). -/
def sentHeaders (h : RequestHandler) : List (String × String) :=
  (getHeaders (getHeaders h).1).2

/-- Reading a key back right after assigning it yields the assigned value. -/
theorem getKey_setKey (l : List (String × String)) (k x : String) :
    getKey (setKey l k x) k = some x := by
  induction l with
  | nil => simp [setKey, getKey]
  | cons hd tl ih =>
      obtain ⟨k0, v0⟩ := hd
      by_cases hk : k0 = k <;> simp [setKey, getKey, hk, ih]

/-- With the clear-auth flag down, the Authorization value the client sends
is the custom value when one is present and truthy, and the default token
when the property is absent or holds the empty string. -/
theorem sentAuth_of_flag_false (h : RequestHandler) (hflag : h.clearAuthFlag = false) :
    getKey (sentHeaders h) "Authorization" =
      some (match getKey h.apiHeaders "Authorization" with
            | some v => if v = "" then h.defaultAuthToken else v
            | none => h.defaultAuthToken) := by
  unfold sentHeaders getHeaders
  simp only [hflag, Bool.not_false, if_pos]
  rcases hk : getKey h.apiHeaders "Authorization" with _ | v <;>
    (simp [hk, getKey_setKey]; try (split <;> simp_all [getKey_setKey]))

/-- With the clear-auth flag raised, both `getHeaders()` calls return the
header map untouched: the request is sent with exactly the custom headers. -/
theorem sentHeaders_of_flag_true (h : RequestHandler) (hflag : h.clearAuthFlag = true) :
    sentHeaders h = h.apiHeaders := by
  unfold sentHeaders getHeaders
  simp [hflag]

/-- A builder state whose custom header map carries an empty-string
Authorization value, with the clear-auth flag down. -/
def emptyAuthHandler : RequestHandler :=
  { defaultBaseUrl := "https://conduit-api.bondaracademy.com/api"
    defaultAuthToken := "Token abc"
    baseUrl := none
    apiPath := "/articles"
    queryParams := []
    apiHeaders := [("Authorization", "")]
    apiBody := Json.emptyObj
    clearAuthFlag := false }

/-- A builder state where `clearAuth()` was called after a custom
Authorization header had been supplied. -/
def clearedCustomAuthHandler : RequestHandler :=
  { defaultBaseUrl := "https://conduit-api.bondaracademy.com/api"
    defaultAuthToken := "Token abc"
    baseUrl := none
    apiPath := "/articles"
    queryParams := []
    apiHeaders := [("Authorization", "Token custom")]
    apiBody := Json.emptyObj
    clearAuthFlag := true }

/-- C2 counterexample: with a supplied empty-string Authorization value the
dispatched header carries the default token, not the supplied value — the
supplied value does not win; and with `clearAuth()` called after supplying a
custom Authorization header, the Authorization key is not absent from the
sent headers. -/
theorem auth_injection_counterexample :
    (getKey (sentHeaders emptyAuthHandler) "Authorization" = some "Token abc" ∧
      getKey (sentHeaders emptyAuthHandler) "Authorization" ≠ some "") ∧
    (getKey (sentHeaders clearedCustomAuthHandler) "Authorization" = some "Token custom" ∧
      getKey (sentHeaders clearedCustomAuthHandler) "Authorization" ≠ none) :=
  ⟨⟨by decide, by decide⟩, ⟨by decide, by decide⟩⟩

/-- C2 amended: with no custom Authorization header and the clear-auth flag
down, the sent headers carry the default token under Authorization; with
`clearAuth()` called, the headers are sent exactly as supplied, so the
Authorization key is absent unless the caller supplied one; a supplied custom
Authorization value wins over the default precisely when it is non-empty. -/
theorem auth_injection_amended (h : RequestHandler) :
    (h.clearAuthFlag = false → getKey h.apiHeaders "Authorization" = none →
      getKey (sentHeaders h) "Authorization" = some h.defaultAuthToken) ∧
    (h.clearAuthFlag = true → sentHeaders h = h.apiHeaders) ∧
    (∀ v : String, h.clearAuthFlag = false →
      getKey h.apiHeaders "Authorization" = some v → v ≠ "" →
      getKey (sentHeaders h) "Authorization" = some v) := by
  refine ⟨fun hflag hnone => ?_, fun hflag => sentHeaders_of_flag_true h hflag,
    fun v hflag hv hne => ?_⟩
  · rw [sentAuth_of_flag_false h hflag, hnone]
  · rw [sentAuth_of_flag_false h hflag, hv]
    simp [hne]

/-- Witness for the amended C2 at concrete builder states. -/
theorem auth_injection_witness :
    getKey (sentHeaders (RequestHandler.make "base" "Token abc")) "Authorization" =
        some "Token abc" ∧
    sentHeaders ((RequestHandler.make "base" "Token abc").clearAuth) = [] ∧
    getKey (sentHeaders ((RequestHandler.make "base" "Token abc").headers
        [("Authorization", "Token custom")])) "Authorization" = some "Token custom" :=
  ⟨(auth_injection_amended (RequestHandler.make "base" "Token abc")).1 rfl rfl,
    (auth_injection_amended ((RequestHandler.make "base" "Token abc").clearAuth)).2.1 rfl,
    (auth_injection_amended ((RequestHandler.make "base" "Token abc").headers
      [("Authorization", "Token custom")])).2.2 "Token custom" rfl rfl (by decide)⟩

/-- C10: with the clear-auth flag down and a custom Authorization property
present, the Authorization value the client sends is the supplied one exactly
when it is truthy; a falsy (empty-string) value loses to the default token,
because the short-circuit or of the source decides precedence. -/
theorem auth_fallback_on_falsy_value (h : RequestHandler) (v : String)
    (hflag : h.clearAuthFlag = false)
    (hv : getKey h.apiHeaders "Authorization" = some v) :
    getKey (sentHeaders h) "Authorization" =
      some (if v = "" then h.defaultAuthToken else v) := by
  rw [sentAuth_of_flag_false h hflag, hv]

/-- Witness for C10 at the concrete empty-valued builder state. -/
theorem auth_fallback_on_falsy_value_witness :
    getKey (sentHeaders emptyAuthHandler) "Authorization" = some "Token abc" := by
  simpa using auth_fallback_on_falsy_value emptyAuthHandler "" rfl rfl

/-- The status-mismatch message contains the expected status, the actual
status and the logger dump it was built from. -/
theorem statusErrorMessage_contains (e a : Nat) (logs : String) :
    containsSub (statusErrorMessage e a logs) (toString e) ∧
    containsSub (statusErrorMessage e a logs) (toString a) ∧
    containsSub (statusErrorMessage e a logs) logs := by
  refine ⟨⟨"Expected status ",
      " but got " ++ toString a ++ "\n\nRecent API Activity: \n" ++ logs, ?_⟩,
    ⟨"Expected status " ++ toString e ++ " but got ",
      "\n\nRecent API Activity: \n" ++ logs, ?_⟩,
    ⟨"Expected status " ++ toString e ++ " but got " ++ toString a ++
      "\n\nRecent API Activity: \n", "", ?_⟩⟩ <;>
  simp [statusErrorMessage, String.append_assoc]

/-- On a status mismatch the error thrown by any of the four dispatches is
the one built by the validator over the final log list. -/
theorem dispatch_mismatch (m : Method) (c : Ctx) (e : Nat) (r : HttpResponse)
    (hp : parseRecovered m r = true) (hne : r.status ≠ e) :
    (dispatch m c e r).2 = Except.error (DispatchError.statusMismatch
      (statusErrorMessage e r.status (getRecentLogs (dispatch m c e r).1.logs))) := by
  cases m <;> rcases r with ⟨st, _ | j⟩ <;>
    simp_all [parseRecovered, dispatch, getRequest, postRequest, putRequest, deleteRequest,
      statusCodeValidator, Except.map]

/-- On a status match every dispatch returns normally (given that a GET
payload parsed). -/
theorem dispatch_match_ok (m : Method) (c : Ctx) (e : Nat) (r : HttpResponse)
    (hp : parseRecovered m r = true) (heq : r.status = e) :
    isOkResult (dispatch m c e r).2 = true := by
  cases m <;> rcases r with ⟨st, _ | j⟩ <;>
    simp_all [parseRecovered, dispatch, getRequest, postRequest, putRequest, deleteRequest,
      statusCodeValidator, isOkResult, Except.map]

/-- C3 counterexample: a GET dispatch whose body fails to parse while the
actual status equals the expected one (both 200) neither returns normally nor
throws a status-mismatch error — it propagates the parse failure. -/
theorem status_validation_counterexample :
    (getRequest ⟨RequestHandler.make "https://conduit-api.bondaracademy.com/api" "Token abc",
        [], []⟩ 200 ⟨200, Except.error ()⟩).2 = Except.error DispatchError.parseFailure :=
  rfl

/-- C3 amended: for every dispatch whose payload parse step does not
propagate (every POST/PUT/DELETE, and every GET whose body parses), a status
mismatch throws the status-mismatch error whose message carries the expected
status, the actual status and the full formatted dump of the logger, and a
status match returns normally. -/
theorem status_validation_amended (c : Ctx) (m : Method) (e : Nat) (r : HttpResponse)
    (hp : parseRecovered m r = true) :
    (r.status ≠ e →
      isStatusMismatch (dispatch m c e r).2 = true ∧
      containsSub (mismatchMessage (dispatch m c e r).2) (toString e) ∧
      containsSub (mismatchMessage (dispatch m c e r).2) (toString r.status) ∧
      containsSub (mismatchMessage (dispatch m c e r).2)
        (getRecentLogs (dispatch m c e r).1.logs)) ∧
    (r.status = e → isOkResult (dispatch m c e r).2 = true) := by
  refine ⟨fun hne => ?_, fun heq => dispatch_match_ok m c e r hp heq⟩
  have hd := dispatch_mismatch m c e r hp hne
  rw [hd]
  have hc := statusErrorMessage_contains e r.status
    (getRecentLogs (dispatch m c e r).1.logs)
  exact ⟨rfl, hc.1, hc.2.1, hc.2.2⟩

/-- Witness for the amended C3: a POST expecting 201 that receives 400 throws
with both numbers and the dump in the message; a GET expecting 200 that
receives a parsed 200 returns normally. -/
theorem status_validation_witness :
    (isStatusMismatch (dispatch Method.POST
        ⟨RequestHandler.make "base" "tok", [], []⟩ 201 ⟨400, Except.ok Json.null⟩).2 = true ∧
      containsSub (mismatchMessage (dispatch Method.POST
        ⟨RequestHandler.make "base" "tok", [], []⟩ 201 ⟨400, Except.ok Json.null⟩).2)
        (toString 201) ∧
      containsSub (mismatchMessage (dispatch Method.POST
        ⟨RequestHandler.make "base" "tok", [], []⟩ 201 ⟨400, Except.ok Json.null⟩).2)
        (toString 400) ∧
      containsSub (mismatchMessage (dispatch Method.POST
        ⟨RequestHandler.make "base" "tok", [], []⟩ 201 ⟨400, Except.ok Json.null⟩).2)
        (getRecentLogs (dispatch Method.POST
          ⟨RequestHandler.make "base" "tok", [], []⟩ 201 ⟨400, Except.ok Json.null⟩).1.logs)) ∧
    isOkResult (dispatch Method.GET
      ⟨RequestHandler.make "base" "tok", [], []⟩ 200 ⟨200, Except.ok Json.null⟩).2 = true :=
  ⟨(status_validation_amended ⟨RequestHandler.make "base" "tok", [], []⟩ Method.POST 201
      ⟨400, Except.ok Json.null⟩ rfl).1 (by decide),
    (status_validation_amended ⟨RequestHandler.make "base" "tok", [], []⟩ Method.GET 200
      ⟨200, Except.ok Json.null⟩ rfl).2 rfl⟩

/-- C5: on a payload parse failure, POST and PUT substitute the empty object
and continue â the response entry is still logged (with the empty-object
body), status validation still runs (returning the payload on a match and
throwing the status-mismatch error on a mismatch) â while GET does not
recover: the parse failure propagates and no response entry is logged. -/
theorem parse_failure_recovery (c : Ctx) (sc st : Nat) :
    ((postRequest c sc ⟨st, Except.error ()⟩).1.logs =
        c.logs ++ [LogEntry.request "POST" (getUrl c.handler) (getHeaders c.handler).2
            (some c.handler.apiBody),
          LogEntry.response st (some Json.emptyObj)] ∧
      (st = sc → (postRequest c sc ⟨st, Except.error ()⟩).2 = Except.ok Json.emptyObj) ∧
      (st ≠ sc → isStatusMismatch (postRequest c sc ⟨st, Except.error ()⟩).2 = true)) ∧
    ((putRequest c sc ⟨st, Except.error ()⟩).1.logs =
        c.logs ++ [LogEntry.request "PUT" (getUrl c.handler) (getHeaders c.handler).2
            (some c.handler.apiBody),
          LogEntry.response st (some Json.emptyObj)] ∧
      (st = sc → (putRequest c sc ⟨st, Except.error ()⟩).2 = Except.ok Json.emptyObj) ∧
      (st ≠ sc → isStatusMismatch (putRequest c sc ⟨st, Except.error ()⟩).2 = true)) ∧
    ((getRequest c sc ⟨st, Except.error ()⟩).2 = Except.error DispatchError.parseFailure ∧
      (getRequest c sc ⟨st, Except.error ()⟩).1.logs =
        c.logs ++ [LogEntry.request "GET" (getUrl c.handler) (getHeaders c.handler).2 none]) := by
  refine ⟨⟨?_, fun heq => ?_, fun hne => ?_⟩, ⟨?_, fun heq => ?_, fun hne => ?_⟩,
      ?_, ?_⟩ <;>
    (simp_all [postRequest, putRequest, getRequest, logRequest, logResponse,
      statusCodeValidator, isStatusMismatch];
      try (split <;> rfl))

/-- Witness for C5 at a concrete builder state: an unparseable POST body with
matching status yields the empty object, one with a mismatching status throws
the status-mismatch error, and an unparseable GET body propagates. -/
theorem parse_failure_recovery_witness :
    (postRequest ⟨RequestHandler.make "base" "tok", [], []⟩ 201
        ⟨201, Except.error ()⟩).2 = Except.ok Json.emptyObj ∧
    isStatusMismatch (postRequest ⟨RequestHandler.make "base" "tok", [], []⟩ 201
        ⟨400, Except.error ()⟩).2 = true ∧
    (getRequest ⟨RequestHandler.make "base" "tok", [], []⟩ 200
        ⟨200, Except.error ()⟩).2 = Except.error DispatchError.parseFailure :=
  ⟨(parse_failure_recovery ⟨RequestHandler.make "base" "tok", [], []⟩ 201 201).1.2.1 rfl,
    (parse_failure_recovery ⟨RequestHandler.make "base" "tok", [], []⟩ 201 400).1.2.2
      (by decide),
    (parse_failure_recovery ⟨RequestHandler.make "base" "tok", [], []⟩ 200 200).2.2.1⟩

/-- Index of the first occurrence of an event in a trace. -/
def firstIdx : List Event → Event → Option Nat
  | [], _ => none
  | e :: tl, x => if e = x then some 0 else (firstIdx tl x).map Nat.succ

/-- The ordering stated by the claim: in the trace of a dispatch, a response
entry is logged strictly before the descriptor reset runs. -/
def responseLoggedBeforeCleanup (tr : List Event) : Bool :=
  match firstIdx tr Event.logResponseEv, firstIdx tr Event.cleanupEv with
  | some i, some j => decide (i < j)
  | _, _ => false

/-- The ordering the code implements: the descriptor reset runs, and strictly
before the response entry is logged, whenever one is logged at all. -/
def cleanupBeforeResponseLogged (tr : List Event) : Bool :=
  match firstIdx tr Event.cleanupEv, firstIdx tr Event.logResponseEv with
  | some j, some i => decide (j < i)
  | some _, none => true
  | none, _ => false

/-- Every dispatch emits its step events in the fixed source order: log the
request, send it, reset the descriptor, then (unless a GET payload parse
propagates) log the response and validate the status. -/
theorem dispatch_events (m : Method) (h : RequestHandler) (logs : List LogEntry)
    (sc : Nat) (r : HttpResponse) :
    (dispatch m ⟨h, logs, []⟩ sc r).1.events =
      [Event.logRequestEv, Event.sendRequestEv, Event.cleanupEv] ++
        (if parseRecovered m r then [Event.logResponseEv, Event.validateEv] else []) := by
  cases m <;> rcases r with ⟨st, _ | j⟩ <;>
    (simp [dispatch, getRequest, postRequest, putRequest, deleteRequest, parseRecovered];
      try (split <;> rfl))

/-- C7 counterexample: in a concrete successful GET dispatch the trace is
log-request, send, cleanup, log-response, validate â the response entry is
recorded at position 3 while the reset already ran at position 2, so the
response is not logged before the reset. -/
theorem response_logging_counterexample :
    responseLoggedBeforeCleanup (dispatch Method.GET
      ⟨RequestHandler.make "base" "tok", [], []⟩ 200
      ⟨200, Except.ok Json.null⟩).1.events = false :=
  rfl

/-- C7 amended: in every dispatch the descriptor reset runs immediately after
the HTTP call and strictly before the Response LogEntry is recorded (when one
is recorded at all) â so at the moment of the reset the response has not yet
been logged, and both always happen before status validation. -/
theorem reset_precedes_response_logging (h : RequestHandler) (logs : List LogEntry)
    (m : Method) (sc : Nat) (r : HttpResponse) :
    cleanupBeforeResponseLogged (dispatch m ⟨h, logs, []⟩ sc r).1.events = true := by
  rw [dispatch_events]
  cases hb : parseRecovered m r <;> simp [hb] <;> rfl

/-- Whether the schema validator raised. -/
def isErrResult : Except String Unit → Bool
  | Except.error _ => true
  | _ => false

/-- The message of a raised schema-validator error (empty otherwise). -/
def errText : Except String Unit → String
  | Except.error m => m
  | _ => ""

/-- C8: with generation off and no schema file stored at the conventional
location, the validator raises a load error whose message names the missing
file path. -/
theorem schema_load_error_names_path (store : List (String × Schema))
    (dirName fileName : String) (P : Json)
    (habsent : findProp store (schemaPathOf dirName fileName) = none) :
    isErrResult (validateSchema store dirName fileName P false).2 = true ∧
    containsSub (errText (validateSchema store dirName fileName P false).2)
      (schemaPathOf dirName fileName) := by
  have hmsg : (validateSchema store dirName fileName P false).2 =
      Except.error ("Failed to read the schema file: " ++
        enoentMessage (schemaPathOf dirName fileName)) := by
    unfold validateSchema loadSchema
    simp [habsent]
  refine ⟨by rw [hmsg]; rfl, ?_⟩
  rw [hmsg]
  refine ⟨"Failed to read the schema file: ENOENT: no such file or directory, open ",
    "", ?_⟩
  simp only [errText, String.append_empty]
  rw [enoentMessage, ← String.append_assoc]
  congr 1

/-- Witness for C8: the empty store holds no schema for GET articles. -/
theorem schema_load_error_witness :
    isErrResult (validateSchema [] "articles" "GET_articles" Json.emptyObj false).2 = true ∧
    containsSub (errText (validateSchema [] "articles" "GET_articles" Json.emptyObj false).2)
      (schemaPathOf "articles" "GET_articles") :=
  schema_load_error_names_path [] "articles" "GET_articles" Json.emptyObj rfl

/-- A baseline assertion oracle that always throws. -/
def alwaysFails : Json → Json → Bool := fun _ _ => false

/-- A baseline assertion oracle that always returns normally. -/
def alwaysPasses : Json → Json → Bool := fun _ _ => true

/-- C9: for every baseline oracle, negation setting and pair of inputs, the
verdict of the wrapped matcher equals the baseline outcome â the wrappers
change only the message, which on failure carries the logger dump appended
after the standard formatting. -/
theorem custom_matchers_preserve_outcome (toEqualBase toBeLeBase : Json → Json → Bool)
    (logs : List LogEntry) (isNot : Bool) (received expected : Json) :
    ((shouldEqual toEqualBase logs isNot received expected).pass =
        toEqualBase received expected) ∧
    ((shouldBeLessThanOrEqual toBeLeBase logs isNot received expected).pass =
        toBeLeBase received expected) ∧
    (toEqualBase received expected = false →
      containsSub (shouldEqual toEqualBase logs isNot received expected).message
        (getRecentLogs logs)) ∧
    (toBeLeBase received expected = false →
      containsSub (shouldBeLessThanOrEqual toBeLeBase logs isNot received expected).message
        (getRecentLogs logs)) := by
  refine ⟨rfl, rfl, fun hf => ?_, fun hf => ?_⟩
  · refine ⟨matcherHint "shouldEqual" isNot ++ "\n\n" ++ "Expected: " ++
        (if isNot then "not" else "") ++ " " ++ stringify expected 0 ++ "\n" ++
        "Received: " ++ stringify received 0 ++ "\n\n" ++ "Recent API Activity: \n",
      "", ?_⟩
    simp [shouldEqual, hf, String.append_assoc]
  · refine ⟨matcherHint "shouldBeLessThanOrEqual" isNot ++ "\n\n" ++ "Expected: " ++
        (if isNot then "not" else "") ++ " " ++ stringify expected 0 ++ "\n" ++
        "Received: " ++ stringify received 0 ++ "\n\n" ++ "Recent API Activity: \n",
      "", ?_⟩
    simp [shouldBeLessThanOrEqual, hf, String.append_assoc]

/-- Witness for C9 at concrete oracles: a failing baseline yields a failing
wrapper whose message carries the dump; a passing baseline yields a passing
wrapper. -/
theorem custom_matchers_witness :
    (shouldEqual alwaysFails [] false Json.null Json.null).pass = false ∧
    containsSub (shouldEqual alwaysFails [] false Json.null Json.null).message
      (getRecentLogs []) ∧
    (shouldBeLessThanOrEqual alwaysPasses [] false Json.null Json.null).pass = true ∧
    containsSub (shouldBeLessThanOrEqual alwaysFails [] false Json.null Json.null).message
      (getRecentLogs []) :=
  ⟨(custom_matchers_preserve_outcome alwaysFails alwaysPasses [] false Json.null Json.null).1,
    (custom_matchers_preserve_outcome alwaysFails alwaysPasses [] false
      Json.null Json.null).2.2.1 rfl,
    (custom_matchers_preserve_outcome alwaysFails alwaysPasses [] false Json.null Json.null).2.1,
    (custom_matchers_preserve_outcome alwaysFails alwaysFails [] false
      Json.null Json.null).2.2.2 rfl⟩

/-- Strict Request/Response alternation: the log is a sequence of adjacent
pairs, each a Request entry immediately followed by a Response entry. -/
def isReqRespSeq : List LogEntry → Bool
  | [] => true
  | LogEntry.request _ _ _ _ :: LogEntry.response _ _ :: rest => isReqRespSeq rest
  | _ => false

/-- Number of dispatches in a sequence of builder calls. -/
def dispatchCount : List Op → Nat
  | [] => 0
  | Op.setter _ :: tl => dispatchCount tl
  | Op.dispatchOp _ _ _ :: tl => dispatchCount tl + 1

/-- Whether one builder call runs to completion: setters always do, and a
dispatch completes (returning, or throwing only from status validation after
its response was logged) unless a GET payload parse propagates. -/
def opCompletes : Op → Bool
  | Op.setter _ => true
  | Op.dispatchOp m _ r => parseRecovered m r

/-- The method name each dispatch logs. -/
def methodName : Method → String
  | .GET => "GET"
  | .POST => "POST"
  | .PUT => "PUT"
  | .DELETE => "DELETE"

/-- The body recorded in the Request entry: the pending body for POST/PUT,
nothing for GET/DELETE. -/
def reqLogBody (m : Method) (h : RequestHandler) : Option Json :=
  match m with
  | .POST => some h.apiBody
  | .PUT => some h.apiBody
  | _ => none

/-- The body recorded in the Response entry: nothing for DELETE, the parsed
payload for GET, and for POST/PUT the parsed payload or the substituted empty
object. -/
def respLogBody (m : Method) (r : HttpResponse) : Option Json :=
  match m with
  | .DELETE => none
  | .GET =>
      match r.jsonBody with
      | Except.ok j => some j
      | Except.error _ => none
  | _ =>
      some (match r.jsonBody with
            | Except.ok j => j
            | Except.error _ => Json.emptyObj)

/-- Every completing dispatch appends exactly one Request entry followed by
one Response entry to the shared log. -/
theorem dispatch_logs_of_completes (m : Method) (c : Ctx) (sc : Nat) (r : HttpResponse)
    (hp : parseRecovered m r = true) :
    (dispatch m c sc r).1.logs =
      c.logs ++ [LogEntry.request (methodName m) (getUrl c.handler)
          (getHeaders c.handler).2 (reqLogBody m c.handler),
        LogEntry.response r.status (respLogBody m r)] := by
  cases m <;> rcases r with ⟨st, _ | j⟩ <;>
    (simp_all [parseRecovered, dispatch, getRequest, postRequest, putRequest, deleteRequest,
      logRequest, logResponse, statusCodeValidator, methodName, reqLogBody, respLogBody];
      try (split <;> rfl))

/-- Appending an alternating block to an alternating log keeps it
alternating. -/
theorem isReqRespSeq_append : ∀ (l extra : List LogEntry), isReqRespSeq l = true →
    isReqRespSeq extra = true → isReqRespSeq (l ++ extra) = true
  | [], extra, _, he => by simpa
  | LogEntry.request m u hs b :: LogEntry.response st sb :: rest, extra, hl, he => by
      have hrest : isReqRespSeq rest = true := by simpa [isReqRespSeq] using hl
      simpa [isReqRespSeq] using isReqRespSeq_append rest extra hrest he
  | [LogEntry.request _ _ _ _], _, hl, _ => by simp [isReqRespSeq] at hl
  | LogEntry.request _ _ _ _ :: LogEntry.request _ _ _ _ :: _, _, hl, _ => by
      simp [isReqRespSeq] at hl
  | LogEntry.response _ _ :: _, _, hl, _ => by simp [isReqRespSeq] at hl

/-- Invariant of a call sequence whose dispatches all complete: the log stays
alternating and grows by exactly two entries per dispatch. -/
theorem runOps_logs (ops : List Op) : ∀ (c : Ctx),
    (∀ op ∈ ops, opCompletes op = true) → isReqRespSeq c.logs = true →
    isReqRespSeq (runOps c ops).logs = true ∧
      (runOps c ops).logs.length = c.logs.length + 2 * dispatchCount ops := by
  induction ops with
  | nil =>
      intro c _ hseq
      simpa [runOps, dispatchCount]
  | cons op tl ih =>
      intro c hcomp hseq
      have hop : opCompletes op = true := hcomp op (by simp)
      have htl : ∀ o ∈ tl, opCompletes o = true := fun o ho => hcomp o (by simp [ho])
      have hstep : runOps c (op :: tl) = runOps (runOp c op) tl := rfl
      rw [hstep]
      cases op with
      | setter s =>
          have hkeep : (runOp c (Op.setter s)).logs = c.logs := rfl
          have h2 := ih (runOp c (Op.setter s)) htl (by rw [hkeep]; exact hseq)
          refine ⟨h2.1, ?_⟩
          rw [h2.2, hkeep]
          simp [dispatchCount]
      | dispatchOp m sc r =>
          have hp : parseRecovered m r = true := hop
          have hlogs : (runOp c (Op.dispatchOp m sc r)).logs =
              c.logs ++ [LogEntry.request (methodName m) (getUrl c.handler)
                  (getHeaders c.handler).2 (reqLogBody m c.handler),
                LogEntry.response r.status (respLogBody m r)] :=
            dispatch_logs_of_completes m c sc r hp
          have hseq2 : isReqRespSeq (runOp c (Op.dispatchOp m sc r)).logs = true := by
            rw [hlogs]
            exact isReqRespSeq_append _ _ hseq (by simp [isReqRespSeq])
          have h2 := ih (runOp c (Op.dispatchOp m sc r)) htl hseq2
          refine ⟨h2.1, ?_⟩
          rw [h2.2, hlogs]
          simp [dispatchCount]
          omega

/-- C4: for every sequence of builder calls whose dispatches all complete,
starting from an empty logger, the log holds exactly two entries per dispatch
in strict alternation Request, Response, Request, Response, …; the two logger
operations only ever append one entry at the end (no entry is mutated or
removed); and the formatted dump renders every entry in append order, most
recent last. -/
theorem log_ordering (ops : List Op) (c0 : Ctx) (hstart : c0.logs = [])
    (hcomp : ∀ op ∈ ops, opCompletes op = true) :
    (isReqRespSeq (runOps c0 ops).logs = true ∧
      (runOps c0 ops).logs.length = 2 * dispatchCount ops) ∧
    (∀ (logs : List LogEntry) (mth u : String) (hs : List (String × String))
        (b : Option Json),
      logRequest logs mth u hs b = logs ++ [LogEntry.request mth u hs b]) ∧
    (∀ (logs : List LogEntry) (st : Nat) (b : Option Json),
      logResponse logs st b = logs ++ [LogEntry.response st b]) ∧
    (∀ logs : List LogEntry,
      getRecentLogs logs = String.intercalate "\n\n" (logs.map renderEntry)) := by
  have h := runOps_logs ops c0 hcomp (by rw [hstart]; rfl)
  refine ⟨⟨h.1, ?_⟩, fun _ _ _ _ _ => rfl, fun _ _ _ => rfl, fun _ => rfl⟩
  rw [h.2, hstart]
  simp

/-- A concrete call script for the C4 witness: one setter, then a POST and a
GET that both complete. -/
def sampleScript : List Op :=
  [Op.setter (SetterOp.path "/articles"),
    Op.dispatchOp Method.POST 201 ⟨201, Except.ok Json.null⟩,
    Op.dispatchOp Method.GET 200 ⟨200, Except.ok Json.null⟩]

/-- Witness for C4 on the concrete script: two dispatches, four entries in
alternation. -/
theorem log_ordering_witness :
    isReqRespSeq (runOps ⟨RequestHandler.make "base" "tok", [], []⟩ sampleScript).logs = true ∧
    (runOps ⟨RequestHandler.make "base" "tok", [], []⟩ sampleScript).logs.length =
      2 * dispatchCount sampleScript :=
  (log_ordering sampleScript ⟨RequestHandler.make "base" "tok", [], []⟩ rfl (by decide)).1

/-- Structural induction over JSON values that hands the induction
hypothesis to every array element and every object field value. -/
theorem Json.inductionOn {P : Json → Prop}
    (hnull : P Json.null) (hbool : ∀ b, P (Json.bool b)) (hnum : ∀ n, P (Json.num n))
    (hstr : ∀ s, P (Json.str s))
    (harr : ∀ es, (∀ e ∈ es, P e) → P (Json.arr es))
    (hobj : ∀ fs, (∀ kv ∈ fs, P kv.2) → P (Json.obj fs)) : ∀ j, P j
  | Json.null => hnull
  | Json.bool b => hbool b
  | Json.num n => hnum n
  | Json.str s => hstr s
  | Json.arr es => harr es (fun e _he =>
      Json.inductionOn hnull hbool hnum hstr harr hobj e)
  | Json.obj fs => hobj fs (fun kv _hkv =>
      Json.inductionOn hnull hbool hnum hstr harr hobj kv.2)
termination_by j => sizeOf j
decreasing_by
  · have h1 := List.sizeOf_lt_of_mem _he
    simp only [Json.arr.sizeOf_spec]
    omega
  · have h1 := List.sizeOf_lt_of_mem _hkv
    obtain ⟨k, v⟩ := kv
    simp only [Json.obj.sizeOf_spec, Prod.mk.sizeOf_spec] at h1 ⊢
    omega

/-- Each element of a well-keyed array is itself well-keyed. -/
theorem noDupKeysList_mem {es : List Json} (h : noDupKeysList es = true)
    {e : Json} (he : e ∈ es) : noDupKeys e = true := by
  induction es with
  | nil => cases he
  | cons e0 tl ih =>
      rw [noDupKeysList, Bool.and_eq_true] at h
      rcases List.mem_cons.mp he with rfl | hmem
      · exact h.1
      · exact ih h.2 hmem

/-- Each field value of a well-keyed object is itself well-keyed. -/
theorem noDupKeysProps_mem {fs : List (String × Json)} (h : noDupKeysProps fs = true)
    {kv : String × Json} (hkv : kv ∈ fs) : noDupKeys kv.2 = true := by
  induction fs with
  | nil => cases hkv
  | cons hd tl ih =>
      obtain ⟨k0, v0⟩ := hd
      rw [noDupKeysProps, Bool.and_eq_true] at h
      rcases List.mem_cons.mp hkv with rfl | hmem
      · exact h.1
      · exact ih h.2 hmem

/-- Inference maps membership: the schema of an element of the sample array
is among the inferred element schemas. -/
theorem mem_createSchemaList {es : List Json} {e : Json} (he : e ∈ es) :
    createSchema e ∈ createSchemaList es := by
  induction es with
  | nil => cases he
  | cons e0 tl ih =>
      rw [createSchemaList]
      rcases List.mem_cons.mp he with rfl | hmem
      · exact List.mem_cons_self _ _
      · exact List.mem_cons_of_mem _ (ih hmem)

/-- A choice of schemas accepts an instance that one alternative accepts. -/
theorem validateAnyOf_of_mem {ss : List Schema} {s : Schema} {j : Json}
    (hmem : s ∈ ss) (hval : validateJson s j = true) : validateAnyOf ss j = true := by
  induction ss with
  | nil => cases hmem
  | cons s0 tl ih =>
      rcases List.mem_cons.mp hmem with rfl | hmem2
      · simp [validateAnyOf, hval]
      · simp [validateAnyOf, ih hmem2]

/-- An item schema accepting every element accepts the whole array. -/
theorem validateElems_of_forall {s : Schema} {es : List Json}
    (h : ∀ e ∈ es, validateJson s e = true) : validateElems s es = true := by
  induction es with
  | nil => simp [validateElems]
  | cons e tl ih =>
      rw [validateElems, Bool.and_eq_true]
      exact ⟨h e (List.mem_cons_self _ _), ih fun e2 he2 => h e2 (List.mem_cons_of_mem _ he2)⟩

/-- A present field witnesses the required-key check for its name. -/
theorem hasField_of_mem {fs : List (String × Json)} {k : String} {v : Json}
    (h : (k, v) ∈ fs) : hasField fs k = true := by
  simp only [hasField, List.any_eq_true]
  exact ⟨(k, v), h, by simp⟩

/-- Requiring exactly the keys of the object always checks out. -/
theorem requiredOk_keys (fs : List (String × Json)) :
    requiredOk (fs.map Prod.fst) fs = true := by
  simp only [requiredOk, List.all_eq_true]
  intro k hk
  obtain ⟨⟨k2, v⟩, hmem, rfl⟩ := List.mem_map.mp hk
  exact hasField_of_mem hmem

/-- With distinct keys, looking a field name up among the inferred property
schemas recovers the inferred schema of that field value. -/
theorem findProp_createSchemaProps {fs : List (String × Json)} {k : String} {v : Json}
    (hnd : (fs.map Prod.fst).Nodup) (hmem : (k, v) ∈ fs) :
    findProp (createSchemaProps fs) k = some (createSchema v) := by
  induction fs with
  | nil => cases hmem
  | cons hd tl ih =>
      obtain ⟨k0, v0⟩ := hd
      simp only [List.map_cons, List.nodup_cons] at hnd
      rcases List.mem_cons.mp hmem with heq | hmem2
      · obtain ⟨rfl, rfl⟩ := Prod.mk.injEq .. ▸ heq
        simp [createSchemaProps, findProp]
      · by_cases hk : k0 = k
        · subst hk
          exact absurd (by simpa using List.mem_map_of_mem Prod.fst hmem2) hnd.1
        · rw [createSchemaProps, findProp, if_neg hk]
          exact ih hnd.2 hmem2

/-- Property schemas that accept every described field value accept the whole
object. -/
theorem validateFields_of_forall {props : List (String × Schema)} :
    ∀ {fs : List (String × Json)},
    (∀ k v, (k, v) ∈ fs → ∀ s, findProp props k = some s → validateJson s v = true) →
    validateFields props fs = true := by
  intro fs
  induction fs with
  | nil => intro _; simp [validateFields]
  | cons hd tl ih =>
      intro h
      obtain ⟨k, v⟩ := hd
      have htl := ih fun k2 v2 hm s hf => h k2 v2 (List.mem_cons_of_mem _ hm) s hf
      rw [validateFields, Bool.and_eq_true]
      refine ⟨?_, htl⟩
      cases hfind : findProp props k with
      | some s => exact h k v (List.mem_cons_self _ _) s hfind
      | none => rfl

/-- Round trip of inference and validation: every well-keyed payload
validates against the schema inferred from itself. -/
theorem validate_createSchema : ∀ (j : Json), noDupKeys j = true →
    validateJson (createSchema j) j = true := by
  intro j
  induction j using Json.inductionOn with
  | hnull => intro _; simp [createSchema, validateJson]
  | hbool b => intro _; simp [createSchema, validateJson]
  | hnum n => intro _; simp [createSchema, validateJson]
  | hstr s => intro _; simp [createSchema, validateJson]
  | harr es ihes =>
      intro hnd
      rw [noDupKeys] at hnd
      cases es with
      | nil => simp [createSchema, validateJson]
      | cons e tl =>
          simp only [createSchema, validateJson]
          refine validateElems_of_forall fun x hx => ?_
          rw [validateJson]
          exact validateAnyOf_of_mem (mem_createSchemaList hx)
            (ihes x hx (noDupKeysList_mem hnd hx))
  | hobj fs ihfs =>
      intro hnd
      rw [noDupKeys, Bool.and_eq_true, decide_eq_true_eq] at hnd
      rw [createSchema, validateJson, Bool.and_eq_true]
      refine ⟨requiredOk_keys fs, validateFields_of_forall fun k v hm s hf => ?_⟩
      have hs : findProp (createSchemaProps fs) k = some (createSchema v) :=
        findProp_createSchemaProps hnd.1 hm
      rw [hf] at hs
      obtain rfl : s = createSchema v := (Option.some.injEq .. ▸ hs).symm ▸ rfl
      exact ihfs ⟨k, v⟩ hm (noDupKeysProps_mem hnd.2 hm)

/-- Reading a schema back right after storing it yields the stored one. -/
theorem findProp_setSchema (l : List (String × Schema)) (k : String) (x : Schema) :
    findProp (setSchema l k x) k = some x := by
  induction l with
  | nil => simp [setSchema, findProp]
  | cons hd tl ih =>
      obtain ⟨k0, v0⟩ := hd
      by_cases hk : k0 = k <;> simp [setSchema, findProp, hk, ih]

/-- C6: calling the validator in generation mode infers a schema from the
payload, persists it, and the validation of that same payload against the
just-generated schema succeeds â for every store state and every payload
expressible as a JavaScript value (that is, with distinct keys in each
object, as a JavaScript object cannot carry duplicates). -/
theorem schema_roundtrip (store : List (String × Schema)) (dirName fileName : String)
    (P : Json) (hnd : noDupKeys P = true) :
    (validateSchema store dirName fileName P true).2 = Except.ok () := by
  unfold validateSchema generateNewSchema loadSchema
  simp [findProp_setSchema, validate_createSchema P hnd]

/-- Witness for C6: a concrete article payload round-trips. -/
theorem schema_roundtrip_witness :
    (validateSchema [] "articles" "POST_articles"
      (Json.obj [("article", Json.obj [("title", Json.str "Test Title"),
        ("description", Json.str "Test Description"),
        ("body", Json.str "Test Body"),
        ("tagList", Json.arr [Json.str "one", Json.str "two"])])])
      true).2 = Except.ok () :=
  schema_roundtrip [] "articles" "POST_articles" _
    (by simp [noDupKeys, noDupKeysList, noDupKeysProps])

end Conduit
